import Mathlib

/-!
Verification development for the TempusChecker record-fetch engine
(`Playerrecords.py`): a shallow embedding of the time formatter, the
per-map fetch/retry loop, the batch partitioner and the batch run loop
with its aggregation of results and failed maps, together with theorems
settling the specified properties.
-/

/-! ## Python numeric primitives

Python `//`, `%` and `int()` on (non-negative or arbitrary) floats,
modelled exactly on rationals: `a // b` is the floor of the quotient,
`a % b = a - b * (a // b)`, and `int(x)` truncates toward zero. -/

/-- Python `int(x)`: truncation toward zero. -/
def pyint (q : ℚ) : Int := if 0 ≤ q then ⌊q⌋ else ⌈q⌉

/-- Python float floor division `a // b` (result is an integer-valued float). -/
def pyfloordiv (a b : ℚ) : ℚ := (⌊a / b⌋ : ℚ)

/-- Python float modulo `a % b = a - b * (a // b)`. -/
def pymod (a b : ℚ) : ℚ := a - b * (⌊a / b⌋ : ℚ)

/-- Python `f"{n:02}"`: zero-pad to width 2 (a negative one-digit value is
already width 2 because of the sign). -/
def pad2 (n : Int) : String := if 0 ≤ n ∧ n < 10 then "0" ++ toString n else toString n

/-! ## Time formatter (`format_time`, Playerrecords.py lines 41-54) -/

/-- Embedding of `format_time(seconds)`: `None` gives the empty string;
otherwise hours/minutes/seconds/centiseconds are computed with Python
`//`, `%` and `int()` and rendered, omitting the hour part when zero and
the minute part when both hours and minutes are zero. -/
def format_time : Option ℚ → String
  | none => ""
  | some seconds =>
    let hours : Int := pyint (pyfloordiv seconds 3600)
    let minutes : Int := pyint (pyfloordiv (pymod seconds 3600) 60)
    let secs : Int := pyint (pymod seconds 60)
    let millis : Int := pyint ((seconds - ((pyint seconds : Int) : ℚ)) * 100)
    if 0 < hours then
      toString hours ++ ":" ++ pad2 minutes ++ ":" ++ pad2 secs ++ "." ++ pad2 millis
    else if 0 < minutes then
      toString minutes ++ ":" ++ pad2 secs ++ "." ++ pad2 millis
    else
      toString secs ++ "." ++ pad2 millis

/-! ## Configuration constants (Playerrecords.py lines 26-31) -/

/-- `BATCH_SIZE = 10`. -/
def BATCH_SIZE : Nat := 10

/-- `MAX_RETRIES = 5`. -/
def MAX_RETRIES : Nat := 5

/-- `COOLDOWN_SECONDS = 10`. -/
def COOLDOWN_SECONDS : Nat := 10

/-! ## Upstream responses and the fetch loop
(`fetch_player_record`, Playerrecords.py lines 65-96)

One attempt of the loop observes one upstream response. `ok r` is a 2xx
response whose JSON body parsed, with `r = none` when the `result` field
is absent or falsy (empty); `httpError` is any other non-2xx status
(`raise_for_status` raises a `RequestException`); `transportError` is a
timeout/connection failure of `requests.get`; `badJson` is a 2xx response
whose body fails to parse (`resp.json()` raises
`requests.exceptions.JSONDecodeError`, a `RequestException` in the
requests library the code imports). All of `rateLimited`, `httpError`,
`transportError`, `badJson` are caught inside the loop and retried after
a backoff sleep. A 2xx body that parses to a non-object, or a truthy
`result` field that is not a dict, raises an `AttributeError` that the
loop does NOT catch; that case is deliberately outside `UpResp` and is
modelled by `UpRespX` and the `...X` functions further below. -/

/-- The `result` payload of a successful response body: `duration` and
`rank` are each individually optional. -/
structure Payload where
  duration : Option ℚ
  rank : Option Int
deriving DecidableEq

/-- One upstream response as observed by one attempt of the retry loop. -/
inductive UpResp where
  | ok (result : Option Payload)
  | notFound
  | rateLimited
  | httpError
  | transportError
  | badJson
deriving DecidableEq

/-- The value `(duration, rank)` returned by `fetch_player_record`
(besides the map entry, which is returned unchanged in every branch). -/
structure FetchResult where
  duration : Option ℚ
  rank : Option Int
deriving DecidableEq

/-- A response is transient exactly when the loop sleeps and retries on it. -/
def transientResp : UpResp → Bool
  | .rateLimited => true
  | .httpError => true
  | .transportError => true
  | .badJson => true
  | _ => false

/-- Backoff for a 429: `6 * (2 ** attempt)` seconds (line 75). -/
def backoff_rl (attempt : Nat) : Nat := 6 * 2 ^ attempt

/-- Backoff for a caught `RequestException`: `2 * (2 ** attempt)` seconds (line 91). -/
def backoff_te (attempt : Nat) : Nat := 2 * 2 ^ attempt

/-- The sleep the loop performs on a transient response at a given attempt. -/
def backoffOf (r : UpResp) (attempt : Nat) : Nat :=
  match r with
  | .rateLimited => backoff_rl attempt
  | _ => backoff_te attempt

/-- The retry loop of `fetch_player_record` (lines 69-96): `env a` is the
upstream response to the request of attempt `a`; `fuel` is the number of
attempts remaining. Returns the fetch value together with the number of
requests issued and the list of backoff sleeps performed, in order. -/
def fetch_loop (env : Nat → UpResp) : Nat → Nat → FetchResult × Nat × List Nat
  | _, 0 => (⟨none, none⟩, 0, [])
  | a, fuel + 1 =>
    match env a with
    | .notFound => (⟨none, none⟩, 1, [])
    | .rateLimited =>
      let r := fetch_loop env (a + 1) fuel
      (r.1, r.2.1 + 1, backoff_rl a :: r.2.2)
    | .ok none => (⟨none, none⟩, 1, [])
    | .ok (some p) => (⟨p.duration, p.rank⟩, 1, [])
    | .httpError =>
      let r := fetch_loop env (a + 1) fuel
      (r.1, r.2.1 + 1, backoff_te a :: r.2.2)
    | .transportError =>
      let r := fetch_loop env (a + 1) fuel
      (r.1, r.2.1 + 1, backoff_te a :: r.2.2)
    | .badJson =>
      let r := fetch_loop env (a + 1) fuel
      (r.1, r.2.1 + 1, backoff_te a :: r.2.2)

/-- `fetch_player_record` (lines 65-96): run the retry loop from attempt 0
with `MAX_RETRIES` attempts; falling out of the loop returns
`(map_entry, None, None)` (line 96). -/
def fetch_player_record (env : Nat → UpResp) : FetchResult × Nat × List Nat :=
  fetch_loop env 0 MAX_RETRIES

/-- The sleeps performed by an all-transient run of `fuel` attempts
starting at attempt `a`. -/
def sleepsFor (env : Nat → UpResp) : Nat → Nat → List Nat
  | _, 0 => []
  | a, fuel + 1 => backoffOf (env a) a :: sleepsFor env (a + 1) fuel

/-! ## Batch partitioning (`batched`, Playerrecords.py lines 98-101) -/

/-- Worker for `batched` with explicit fuel (the fuel is at least the
list length at every call, so it never runs out). -/
def batchedAux {α : Type} (n : Nat) : Nat → List α → List (List α)
  | 0, _ => []
  | _ + 1, [] => []
  | fuel + 1, a :: l =>
    if n = 0 then []
    else (a :: l).take n :: batchedAux n fuel ((a :: l).drop n)

/-- Embedding of `batched(iterable, n)`: successive chunks of `n`
elements; the `while batch := list(islice(it, n))` loop stops at the
first empty chunk, so `n = 0` yields nothing. -/
def batched {α : Type} (n : Nat) (l : List α) : List (List α) :=
  batchedAux n l.length l

/-! ## Map records, result rows and the aggregation step
(`run_tempus_fetch`, Playerrecords.py lines 184-223) -/

/-- One row of the map catalog CSV, as used by the engine. -/
structure MapRecord where
  map_id : Nat
  map_name : String
  tier : String
  rating : String
deriving DecidableEq

/-- One row appended to `results` (lines 206-213). `player_rank` holds
the raw rank when present and the empty-string sentinel (`none`) when
`rank_val is None`. -/
structure ResultRow where
  map_name : String
  class_name : String
  tier : String
  rating : String
  player_time_formatted : String
  player_rank : Option Int
deriving DecidableEq

/-- The row built for one completed fetch (lines 206-213). -/
def mkRow (cls : String) (m : MapRecord) (fr : FetchResult) : ResultRow :=
  { map_name := m.map_name
    class_name := cls
    tier := m.tier
    rating := m.rating
    player_time_formatted := format_time fr.duration
    player_rank := fr.rank }

/-- State threaded through the run loop: the `results` and `failed_maps`
accumulators, plus instrumentation: the maps submitted to the executor,
the number of `stop_requested` checks performed so far, and the number of
cooldown sleeps performed. -/
@[ext]
structure RunState where
  results : List ResultRow
  failed : List MapRecord
  dispatched : List MapRecord
  checks : Nat
  cooldowns : Nat
deriving DecidableEq

/-- The initial run state (lines 184-185). -/
def initState : RunState :=
  { results := [], failed := [], dispatched := [], checks := 0, cooldowns := 0 }

/-- Aggregation of one completed fetch (lines 201-216): append the row to
`results`, and append the map entry to `failed_maps` iff
`time_val is None and rank_val is None`. -/
def record1 (cls : String) (m : MapRecord) (fr : FetchResult) (st : RunState) : RunState :=
  { st with
    results := st.results ++ [mkRow cls m fr]
    failed :=
      if fr.duration = none ∧ fr.rank = none then st.failed ++ [m] else st.failed }

/-- The `stop_requested` flag as observed by the i-th check of the run: the
user presses Stop once and the flag never resets during a run, so the
flag is monotone; `k` is the index of the first check that observes it
(`k` larger than every check index models a run never cancelled). -/
def stopq (k i : Nat) : Bool := k ≤ i

/-- The `as_completed` consumption loop (lines 197-219): `order` is the
completion order of the batch; each iteration first checks
`stop_requested` (line 198) and breaks without consuming the completed
future, else reads the future's value and aggregates it. -/
def processCompletions (k : Nat) (env : MapRecord → Nat → UpResp) (cls : String) :
    List MapRecord → RunState → RunState
  | [], st => st
  | m :: rest, st =>
    if stopq k st.checks then { st with checks := st.checks + 1 }
    else
      processCompletions k env cls rest
        (record1 cls m (fetch_player_record (env m)).1 { st with checks := st.checks + 1 })

/-- The batch loop (lines 190-223) over the already-partitioned batches,
each listed in its completion order: check `stop_requested` at the top of
each iteration (line 191), submit the whole batch (line 196), drain
completions, check `stop_requested` again (line 221) and either break or
sleep the cooldown (line 223) and continue. -/
def runBatches (k : Nat) (env : MapRecord → Nat → UpResp) (cls : String) :
    List (List MapRecord) → RunState → RunState
  | [], st => st
  | b :: rest, st =>
    if stopq k st.checks then { st with checks := st.checks + 1 }
    else
      let st1 := { st with checks := st.checks + 1, dispatched := st.dispatched ++ b }
      let st2 := processCompletions k env cls b st1
      if stopq k st2.checks then { st2 with checks := st2.checks + 1 }
      else
        runBatches k env cls rest
          { st2 with checks := st2.checks + 1, cooldowns := st2.cooldowns + 1 }

/-- The threaded run of `run_tempus_fetch` (lines 184-223): the maps are
partitioned with `batched(maps, BATCH_SIZE)` and each batch `b` with
index `i` completes in the order `arr i b` (a permutation of `b` chosen
by the scheduler). -/
def run_tempus_fetch (k : Nat) (env : MapRecord → Nat → UpResp) (cls : String)
    (maps : List MapRecord) (arr : Nat → List MapRecord → List MapRecord) : RunState :=
  runBatches k env cls ((batched BATCH_SIZE maps).enum.map fun p => arr p.1 p.2) initState

/-- The row a map yields in a given run environment. -/
def rowOf (env : MapRecord → Nat → UpResp) (cls : String) (m : MapRecord) : ResultRow :=
  mkRow cls m (fetch_player_record (env m)).1

/-- The rows a list of maps yields, in order. -/
def rowsOf (env : MapRecord → Nat → UpResp) (cls : String) (ms : List MapRecord) :
    List ResultRow :=
  ms.map (rowOf env cls)

/-- Whether a map fails (is appended to `failed_maps`) in a given
environment: its terminal fetch value carries neither duration nor rank. -/
def isFailed (env : MapRecord → Nat → UpResp) (m : MapRecord) : Bool :=
  decide ((fetch_player_record (env m)).1.duration = none ∧
    (fetch_player_record (env m)).1.rank = none)

/-- Number of `stop_requested` checks a full, uncancelled run of these
batches performs: one at the top of the batch loop, one per completion,
one before the cooldown. -/
def checksOf (bs : List (List MapRecord)) : Nat := (bs.map fun b => b.length + 2).sum

/-! ## The exception-carrying extension of the fetch model

The loop at lines 69-96 catches only `requests.exceptions.RequestException`.
A 2xx response whose body parses to a non-object (so `data.get("result")`
at line 82 raises `AttributeError`), or whose `result` field is truthy
but not a dict (so `result.get("duration")` at line 86 raises
`AttributeError`), escapes the `except` arm at line 90. The exception is
stored in the future, re-raised by `future.result()` at line 201, and
`run_tempus_fetch` has no enclosing try around the batch loop (the try at
lines 172-182 covers only the CSV load), so the worker thread dies and
the summary at lines 249-264 never runs. `UpRespX` extends the
well-shaped responses of `UpResp` with this case; the `...X` functions
return `none` where the Python code raises. -/

/-- An upstream response as observed by one attempt, including the case
of a parsed 2xx body of unexpected shape (non-object body, or truthy
non-dict `result` field), which raises an `AttributeError` the retry
loop does not catch. -/
inductive UpRespX where
  | wellShaped (r : UpResp)
  | badShape
deriving DecidableEq

/-- The retry loop of `fetch_player_record` with the uncaught-exception
case: `none` models an `AttributeError` escaping the loop (line 82 or
86). -/
def fetch_loopX (env : Nat → UpRespX) : Nat → Nat → Option (FetchResult × Nat × List Nat)
  | _, 0 => some (⟨none, none⟩, 0, [])
  | a, fuel + 1 =>
    match env a with
    | .badShape => none
    | .wellShaped .notFound => some (⟨none, none⟩, 1, [])
    | .wellShaped .rateLimited =>
      (fetch_loopX env (a + 1) fuel).map fun t => (t.1, t.2.1 + 1, backoff_rl a :: t.2.2)
    | .wellShaped (.ok none) => some (⟨none, none⟩, 1, [])
    | .wellShaped (.ok (some p)) => some (⟨p.duration, p.rank⟩, 1, [])
    | .wellShaped .httpError =>
      (fetch_loopX env (a + 1) fuel).map fun t => (t.1, t.2.1 + 1, backoff_te a :: t.2.2)
    | .wellShaped .transportError =>
      (fetch_loopX env (a + 1) fuel).map fun t => (t.1, t.2.1 + 1, backoff_te a :: t.2.2)
    | .wellShaped .badJson =>
      (fetch_loopX env (a + 1) fuel).map fun t => (t.1, t.2.1 + 1, backoff_te a :: t.2.2)

/-- `fetch_player_record` over the exception-carrying model. -/
def fetch_player_recordX (env : Nat → UpRespX) : Option (FetchResult × Nat × List Nat) :=
  fetch_loopX env 0 MAX_RETRIES

/-- The `as_completed` consumption loop with the worker's exception
re-raised by `future.result()` (line 201): a crashed fetch kills the
whole run (`none`); there is no enclosing handler. -/
def processCompletionsX (k : Nat) (env : MapRecord → Nat → UpRespX) (cls : String) :
    List MapRecord → RunState → Option RunState
  | [], st => some st
  | m :: rest, st =>
    if stopq k st.checks then some { st with checks := st.checks + 1 }
    else
      match fetch_player_recordX (env m) with
      | none => none
      | some t =>
        processCompletionsX k env cls rest
          (record1 cls m t.1 { st with checks := st.checks + 1 })

/-- The batch loop over the exception-carrying model: a crash anywhere
aborts the run before any summary is produced. -/
def runBatchesX (k : Nat) (env : MapRecord → Nat → UpRespX) (cls : String) :
    List (List MapRecord) → RunState → Option RunState
  | [], st => some st
  | b :: rest, st =>
    if stopq k st.checks then some { st with checks := st.checks + 1 }
    else
      match processCompletionsX k env cls b
        { st with checks := st.checks + 1, dispatched := st.dispatched ++ b } with
      | none => none
      | some st2 =>
        if stopq k st2.checks then some { st2 with checks := st2.checks + 1 }
        else
          runBatchesX k env cls rest
            { st2 with checks := st2.checks + 1, cooldowns := st2.cooldowns + 1 }

/-- The threaded run over the exception-carrying model: `none` means the
run thread died with an uncaught exception and produced no summary. -/
def run_tempus_fetchX (k : Nat) (env : MapRecord → Nat → UpRespX) (cls : String)
    (maps : List MapRecord) (arr : Nat → List MapRecord → List MapRecord) :
    Option RunState :=
  runBatchesX k env cls ((batched BATCH_SIZE maps).enum.map fun p => arr p.1 p.2) initState

/-! ## Lemmas about the fetch loop -/

/-- An all-transient stretch of attempts exhausts the fuel, returns the
empty fetch value, issues one request per attempt and sleeps once per
attempt. -/
theorem fetch_loop_transient (env : Nat → UpResp) :
    ∀ (fuel a : Nat), (∀ i, i < fuel → transientResp (env (a + i)) = true) →
      fetch_loop env a fuel = (⟨none, none⟩, fuel, sleepsFor env a fuel) := by
  intro fuel
  induction fuel with
  | zero => intro a _; rfl
  | succ n ih =>
    intro a h
    have h0 : transientResp (env a) = true := by
      have := h 0 (Nat.succ_pos n); simpa using this
    have hrest : ∀ i, i < n → transientResp (env (a + 1 + i)) = true := by
      intro i hi
      have := h (i + 1) (Nat.succ_lt_succ hi)
      have e : a + (i + 1) = a + 1 + i := by omega
      rwa [e] at this
    cases henva : env a with
    | ok r => rw [henva] at h0; cases r <;> simp [transientResp] at h0
    | notFound => rw [henva] at h0; simp [transientResp] at h0
    | rateLimited => simp [fetch_loop, henva, ih (a + 1) hrest, sleepsFor, backoffOf]
    | httpError => simp [fetch_loop, henva, ih (a + 1) hrest, sleepsFor, backoffOf]
    | transportError => simp [fetch_loop, henva, ih (a + 1) hrest, sleepsFor, backoffOf]
    | badJson => simp [fetch_loop, henva, ih (a + 1) hrest, sleepsFor, backoffOf]

/-- One sleep per attempt. -/
theorem sleepsFor_length (env : Nat → UpResp) :
    ∀ (fuel a : Nat), (sleepsFor env a fuel).length = fuel := by
  intro fuel
  induction fuel with
  | zero => intro a; rfl
  | succ n ih => intro a; simp [sleepsFor, ih]

/-- The sleeps of `fuel + 1` attempts are the sleeps of the first `fuel`
attempts followed by the backoff of the final attempt. -/
theorem sleepsFor_concat (env : Nat → UpResp) :
    ∀ (fuel a : Nat),
      sleepsFor env a (fuel + 1) =
        sleepsFor env a fuel ++ [backoffOf (env (a + fuel)) (a + fuel)] := by
  intro fuel
  induction fuel with
  | zero => intro a; simp [sleepsFor]
  | succ n ih =>
    intro a
    have e : a + 1 + n = a + (n + 1) := by omega
    rw [sleepsFor, ih (a + 1), e, sleepsFor]
    rfl
/-! ## Lemmas about batch partitioning -/

/-- With enough fuel and a positive chunk size, the chunks of `batchedAux`
concatenate back to the input list. -/
theorem batchedAux_join {α : Type} (n : Nat) (hn : n ≠ 0) :
    ∀ (fuel : Nat) (l : List α), l.length ≤ fuel → (batchedAux n fuel l).flatten = l := by
  intro fuel
  induction fuel with
  | zero =>
    intro l h
    have hl : l = [] := List.eq_nil_of_length_eq_zero (Nat.le_zero.mp h)
    subst hl; rfl
  | succ f ih =>
    intro l h
    cases l with
    | nil => rfl
    | cons a t =>
      rw [batchedAux, if_neg hn, List.flatten_cons, ih _ ?_, List.take_append_drop]
      have hd : ((a :: t).drop n).length = t.length + 1 - n := by
        simp [List.length_drop]
      rw [hd]
      have ht : t.length + 1 ≤ f + 1 := h
      omega

/-- `batched` with a positive chunk size drops no element and duplicates
no element: the chunks concatenate back to the input. -/
theorem batched_flatten {α : Type} (n : Nat) (hn : n ≠ 0) (l : List α) :
    (batched n l).flatten = l :=
  batchedAux_join n hn l.length l (Nat.le_refl _)

/-! ## Lemmas about the run loop -/

/-- A completion-consumption loop during which the stop flag is never
observed consumes the whole batch: one row per map, the failing maps
filtered into `failed`, one check per map. -/
theorem processCompletions_no_stop (k : Nat) (env : MapRecord → Nat → UpResp) (cls : String) :
    ∀ (order : List MapRecord) (st : RunState), st.checks + order.length ≤ k →
      processCompletions k env cls order st =
        { st with
          results := st.results ++ rowsOf env cls order
          failed := st.failed ++ order.filter (isFailed env)
          checks := st.checks + order.length } := by
  intro order
  induction order with
  | nil => intro st h; simp [processCompletions, rowsOf]
  | cons m rest ih =>
    intro st h
    rw [List.length_cons] at h
    have hlt : ¬ stopq k st.checks = true := by
      simp only [stopq, decide_eq_true_eq]
      omega
    have hrec := ih (record1 cls m (fetch_player_record (env m)).1
      { st with checks := st.checks + 1 })
      (by simp [record1]; omega)
    rw [processCompletions, if_neg hlt, hrec]
    by_cases hc : (fetch_player_record (env m)).1.duration = none ∧
        (fetch_player_record (env m)).1.rank = none
    · ext <;> simp [record1, hc, rowsOf, rowOf, isFailed, List.filter_cons] <;> omega
    · ext <;> simp [record1, hc, rowsOf, rowOf, isFailed, List.filter_cons] <;> omega

/-- A batch loop during which the stop flag is never observed processes
every batch: all maps dispatched, one row per map, the failing maps
filtered into `failed`, and one cooldown sleep per batch (including the
last). -/
theorem runBatches_no_stop (k : Nat) (env : MapRecord → Nat → UpResp) (cls : String) :
    ∀ (bs : List (List MapRecord)) (st : RunState), st.checks + checksOf bs ≤ k →
      runBatches k env cls bs st =
        { st with
          results := st.results ++ rowsOf env cls bs.flatten
          failed := st.failed ++ bs.flatten.filter (isFailed env)
          dispatched := st.dispatched ++ bs.flatten
          checks := st.checks + checksOf bs
          cooldowns := st.cooldowns + bs.length } := by
  intro bs
  induction bs with
  | nil => intro st h; simp [runBatches, checksOf, rowsOf]
  | cons b rest ih =>
    intro st h
    have hcb : checksOf (b :: rest) = b.length + 2 + checksOf rest := by
      simp [checksOf]
    rw [hcb] at h
    have hlt : ¬ stopq k st.checks = true := by
      simp only [stopq, decide_eq_true_eq]
      omega
    simp only [runBatches, if_neg hlt]
    rw [processCompletions_no_stop k env cls b
      { st with checks := st.checks + 1, dispatched := st.dispatched ++ b } (by simp; omega)]
    have hlt2 : ¬ stopq k (st.checks + 1 + b.length) = true := by
      simp only [stopq, decide_eq_true_eq]
      omega
    simp only [if_neg hlt2]
    rw [ih _ (by simp; omega)]
    rw [hcb, List.flatten_cons]
    ext <;> simp [rowsOf, List.filter_append] <;> omega

/-- A completion-consumption loop that observes the stop flag mid-batch
records exactly the completions consumed before the observation (the
first `k - st.checks` of the completion order) and discards the rest. -/
theorem processCompletions_stopped (k : Nat) (env : MapRecord → Nat → UpResp) (cls : String) :
    ∀ (order : List MapRecord) (st : RunState), st.checks ≤ k →
      k < st.checks + order.length →
      processCompletions k env cls order st =
        { st with
          results := st.results ++ rowsOf env cls (order.take (k - st.checks))
          failed := st.failed ++ (order.take (k - st.checks)).filter (isFailed env)
          checks := k + 1 } := by
  intro order
  induction order with
  | nil =>
    intro st h1 h2
    rw [List.length_nil] at h2
    omega
  | cons m rest ih =>
    intro st h1 h2
    rw [List.length_cons] at h2
    by_cases hstop : k ≤ st.checks
    · have hk : k = st.checks := Nat.le_antisymm hstop h1
      have hlt : stopq k st.checks = true := by
        simp only [stopq, decide_eq_true_eq]
        omega
      rw [processCompletions, if_pos hlt]
      have htake : k - st.checks = 0 := by omega
      ext <;> simp [htake, rowsOf] <;> omega
    · have hlt : ¬ stopq k st.checks = true := by
        simp only [stopq, decide_eq_true_eq]
        omega
      have hrec := ih (record1 cls m (fetch_player_record (env m)).1
        { st with checks := st.checks + 1 })
        (by simp [record1]; omega) (by simp [record1]; omega)
      rw [processCompletions, if_neg hlt, hrec]
      have e : k - st.checks = (k - (st.checks + 1)) + 1 := by omega
      rw [e, List.take_succ_cons]
      by_cases hc : (fetch_player_record (env m)).1.duration = none ∧
          (fetch_player_record (env m)).1.rank = none
      · ext <;> simp [record1, hc, rowsOf, rowOf, isFailed, List.filter_cons]
      · ext <;> simp [record1, hc, rowsOf, rowOf, isFailed, List.filter_cons]

/-- A batch loop iteration during which the stop flag is first observed
mid-batch (after the top-of-loop check, before the last completion is
consumed) dispatches the whole current batch, records exactly the prefix
of completions consumed before the observation, dispatches no further
batch and skips the cooldown sleep. -/
theorem runBatches_stopped (k : Nat) (env : MapRecord → Nat → UpResp) (cls : String)
    (b : List MapRecord) (rest : List (List MapRecord)) (st : RunState)
    (h1 : st.checks < k) (h2 : k ≤ st.checks + b.length) :
    runBatches k env cls (b :: rest) st =
      { st with
        results := st.results ++ rowsOf env cls (b.take (k - st.checks - 1))
        failed := st.failed ++ (b.take (k - st.checks - 1)).filter (isFailed env)
        dispatched := st.dispatched ++ b
        checks := k + 2
        cooldowns := st.cooldowns } := by
  have hlt : ¬ stopq k st.checks = true := by
    simp only [stopq, decide_eq_true_eq]
    omega
  simp only [runBatches, if_neg hlt]
  rw [processCompletions_stopped k env cls b
    { st with checks := st.checks + 1, dispatched := st.dispatched ++ b }
    (by simp; omega) (by simp; omega)]
  have hlt2 : stopq k (k + 1) = true := by
    simp only [stopq, decide_eq_true_eq]
    omega
  simp only [if_pos hlt2]
  have e : k - (st.checks + 1) = k - st.checks - 1 := by omega
  ext <;> simp [e]

/-! ## Permutation helpers -/

/-- Concatenating pairwise-permuted lists of lists gives permuted results. -/
theorem flatten_perm_of_forall₂ {α : Type} {l₁ l₂ : List (List α)}
    (h : List.Forall₂ List.Perm l₁ l₂) : l₁.flatten.Perm l₂.flatten := by
  induction h with
  | nil => exact List.Perm.refl _
  | cons h₁ _ ih => exact h₁.append ih

/-- Reordering each batch by an arbitrary per-batch-index completion order
yields a list of batches pairwise permuted with the original batches. -/
theorem forall₂_perm_enumFrom {α : Type} (arr : Nat → List α → List α)
    (harr : ∀ i b, (arr i b).Perm b) :
    ∀ (bs : List (List α)) (off : Nat),
      List.Forall₂ List.Perm ((bs.enumFrom off).map fun p => arr p.1 p.2) bs := by
  intro bs
  induction bs with
  | nil => intro off; exact List.Forall₂.nil
  | cons b t ih =>
    intro off
    rw [List.enumFrom_cons, List.map_cons]
    exact List.Forall₂.cons (harr off b) (ih (off + 1))

/-! ## Lemmas about the time formatter -/

/-- The Python modulo by a positive divisor is non-negative. -/
theorem pymod_nonneg (a b : ℚ) (hb : 0 < b) : 0 ≤ pymod a b := by
  have hb0 : b ≠ 0 := ne_of_gt hb
  have hfract : b * Int.fract (a / b) = pymod a b := by
    rw [Int.fract, mul_sub, mul_comm b (a / b), div_mul_cancel₀ _ hb0, pymod]
  rw [← hfract]
  exact mul_nonneg hb.le (Int.fract_nonneg _)

/-- The formatter never renders a present duration as the empty string:
every branch contains at least the dot before the centiseconds. -/
theorem format_time_some_ne_empty (s : ℚ) : format_time (some s) ≠ "" := by
  have hcolon : (":" : String).length = 1 := rfl
  have hdot : ("." : String).length = 1 := rfl
  have hempty : ("" : String).length = 0 := rfl
  intro h
  have hl := congrArg String.length h
  simp only [format_time] at hl
  split at hl
  · simp only [String.length_append, hcolon, hdot, hempty] at hl
    omega
  · split at hl
    · simp only [String.length_append, hcolon, hdot, hempty] at hl
      omega
    · simp only [String.length_append, hdot, hempty] at hl
      omega

/-- The formatted time is empty exactly when the duration is absent. -/
theorem format_time_eq_empty_iff (o : Option ℚ) : format_time o = "" ↔ o = none := by
  cases o with
  | none => simp [format_time]
  | some s =>
    constructor
    · intro h
      exact absurd h (format_time_some_ne_empty s)
    · intro h
      cases h

/-! ## Claim theorems -/

/-- C1: a run of the batch engine that completes without cancellation (the
stop flag is never observed) produces exactly one ResultRow per input
MapRecord, whatever the per-batch completion orders: the results
collection has the length of the input map sequence and is a permutation
of the input maps' rows, so every input map appears exactly once among
the results — the batch partitioning drops no map and duplicates no map. -/
theorem c1_one_result_row_per_map (k : Nat) (env : MapRecord → Nat → UpResp)
    (cls : String) (maps : List MapRecord) (arr : Nat → List MapRecord → List MapRecord)
    (harr : ∀ i b, (arr i b).Perm b)
    (hk : checksOf ((batched BATCH_SIZE maps).enum.map fun p => arr p.1 p.2) ≤ k) :
    (run_tempus_fetch k env cls maps arr).results.length = maps.length ∧
    (run_tempus_fetch k env cls maps arr).results.Perm (rowsOf env cls maps) := by
  have hforall : List.Forall₂ List.Perm
      ((batched BATCH_SIZE maps).enum.map fun p => arr p.1 p.2)
      (batched BATCH_SIZE maps) :=
    forall₂_perm_enumFrom arr harr (batched BATCH_SIZE maps) 0
  have hperm : ((batched BATCH_SIZE maps).enum.map fun p => arr p.1 p.2).flatten.Perm maps := by
    have hp := flatten_perm_of_forall₂ hforall
    rwa [batched_flatten BATCH_SIZE (by decide)] at hp
  have hrun := runBatches_no_stop k env cls
    ((batched BATCH_SIZE maps).enum.map fun p => arr p.1 p.2) initState
    (by simpa [initState] using hk)
  rw [run_tempus_fetch, hrun]
  constructor
  · simp only [initState, List.nil_append]
    rw [rowsOf, List.length_map]
    exact hperm.length_eq
  · simpa [initState, rowsOf] using hperm.map (rowOf env cls)

/-- C2: the aggregation step appends a map to the failed set iff its
ResultRow has an empty formatted time and an empty rank field;
equivalently iff the terminal fetch value carried neither a duration nor
a rank, and on a success value (any duration or rank present) the map is
never appended to the failed set. -/
theorem c2_failed_iff_row_empty (cls : String) (m : MapRecord) (fr : FetchResult)
    (st : RunState) :
    ((record1 cls m fr st).failed = st.failed ++ [m] ∨
      (record1 cls m fr st).failed = st.failed) ∧
    ((record1 cls m fr st).failed = st.failed ++ [m] ↔
      ((mkRow cls m fr).player_time_formatted = "" ∧
        (mkRow cls m fr).player_rank = none)) := by
  by_cases hc : fr.duration = none ∧ fr.rank = none
  · have hfail : (record1 cls m fr st).failed = st.failed ++ [m] := by
      simp [record1, hc]
    refine ⟨Or.inl hfail, ?_, ?_⟩
    · intro _
      constructor
      · show format_time fr.duration = ""
        rw [hc.1]
        rfl
      · exact hc.2
    · intro _
      exact hfail
  · have hfail : (record1 cls m fr st).failed = st.failed := by
      simp [record1, hc]
    refine ⟨Or.inr hfail, ?_, ?_⟩
    · intro h
      rw [hfail] at h
      have hlen := congrArg List.length h
      simp at hlen
    · rintro ⟨hfmt, hrank⟩
      have hdur : fr.duration = none := by
        have hf : format_time fr.duration = "" := hfmt
        exact (format_time_eq_empty_iff fr.duration).mp hf
      have hrank2 : fr.rank = none := hrank
      exact absurd ⟨hdur, hrank2⟩ hc

/-- C4: a 404 response is terminal and never retried: the attempt that
receives it returns `(map_entry, None, None)` at once, having issued
exactly one request from that point and performed no backoff sleep; in
particular a 404 on the first attempt means exactly one request for the
whole fetch and an empty sleep trace. -/
theorem c4_notFound_terminal_no_retry (env : Nat → UpResp)
    (h : env 0 = UpResp.notFound) :
    fetch_player_record env = (⟨none, none⟩, 1, []) ∧
    ∀ (a fuel : Nat), env a = UpResp.notFound →
      fetch_loop env a (fuel + 1) = (⟨none, none⟩, 1, []) := by
  constructor
  · have e : MAX_RETRIES = 4 + 1 := rfl
    rw [fetch_player_record, e]
    simp [fetch_loop, h]
  · intro a fuel ha
    simp [fetch_loop, ha]

/-- C5: when every one of the MAX_RETRIES attempts observes a transient
failure (429, other bad status, transport error or unparseable body, in
any mix), the fetch returns the exhausted value `(None, None)` and issues
exactly MAX_RETRIES requests, no more and no fewer. -/
theorem c5_retries_exhausted_exact_requests (env : Nat → UpResp)
    (h : ∀ i, i < MAX_RETRIES → transientResp (env i) = true) :
    (fetch_player_record env).1 = ⟨none, none⟩ ∧
    (fetch_player_record env).2.1 = MAX_RETRIES := by
  have hx := fetch_loop_transient env MAX_RETRIES 0
    (by intro i hi; simpa using h i hi)
  rw [fetch_player_record, hx]
  exact ⟨rfl, rfl⟩

/-- C6: the backoff delay is exactly `6 * 2 ^ attempt` seconds for a 429
and exactly `2 * 2 ^ attempt` seconds for a transport-class failure
(values 6, 12, 24, 48, 96 and 2, 4, 8, 16, 32 over the MAX_RETRIES
attempts), and both delays are monotonically non-decreasing in the
attempt number. -/
theorem c6_backoff_policy (a b : Nat) (hab : a ≤ b) :
    backoff_rl a = 6 * 2 ^ a ∧ backoff_te a = 2 * 2 ^ a ∧
    backoff_rl a ≤ backoff_rl b ∧ backoff_te a ≤ backoff_te b ∧
    (List.range MAX_RETRIES).map backoff_rl = [6, 12, 24, 48, 96] ∧
    (List.range MAX_RETRIES).map backoff_te = [2, 4, 8, 16, 32] := by
  refine ⟨rfl, rfl, ?_, ?_, by decide, by decide⟩
  · exact Nat.mul_le_mul_left 6 (Nat.pow_le_pow_right (by decide) hab)
  · exact Nat.mul_le_mul_left 2 (Nat.pow_le_pow_right (by decide) hab)

/-- C9: the fetch returns the identical observable value `(None, None)`
in three distinct terminal situations — an HTTP 404, a 2xx response with
an absent or empty result payload, and retries exhausted — so the rows
built downstream are identical and all three land in the failed set with
the same shape. -/
theorem c9_terminal_cases_indistinguishable (e1 e2 e3 : Nat → UpResp)
    (cls : String) (m : MapRecord)
    (h1 : e1 0 = UpResp.notFound) (h2 : e2 0 = UpResp.ok none)
    (h3 : ∀ i, i < MAX_RETRIES → transientResp (e3 i) = true) :
    (fetch_player_record e1).1 = ⟨none, none⟩ ∧
    (fetch_player_record e2).1 = ⟨none, none⟩ ∧
    (fetch_player_record e3).1 = ⟨none, none⟩ ∧
    mkRow cls m (fetch_player_record e1).1 = mkRow cls m (fetch_player_record e3).1 ∧
    mkRow cls m (fetch_player_record e2).1 = mkRow cls m (fetch_player_record e3).1 ∧
    isFailed (fun _ => e1) m = true ∧ isFailed (fun _ => e2) m = true ∧
    isFailed (fun _ => e3) m = true := by
  have e : MAX_RETRIES = 4 + 1 := rfl
  have a1 : (fetch_player_record e1).1 = ⟨none, none⟩ := by
    rw [fetch_player_record, e]
    simp [fetch_loop, h1]
  have a2 : (fetch_player_record e2).1 = ⟨none, none⟩ := by
    rw [fetch_player_record, e]
    simp [fetch_loop, h2]
  have a3 : (fetch_player_record e3).1 = ⟨none, none⟩ := by
    have hx := fetch_loop_transient e3 MAX_RETRIES 0
      (by intro i hi; simpa using h3 i hi)
    rw [fetch_player_record, hx]
  refine ⟨a1, a2, a3, ?_, ?_, ?_, ?_, ?_⟩
  · rw [a1, a3]
  · rw [a2, a3]
  · simp [isFailed, a1]
  · simp [isFailed, a2]
  · simp [isFailed, a3]

/-- C10: when a transient failure occurs on the final allowed attempt the
loop still sleeps the full backoff for that attempt before giving up: a
fetch that fails transiently on all attempts performs exactly MAX_RETRIES
backoff sleeps, the last being the backoff of attempt MAX_RETRIES - 1,
after the last request. -/
theorem c10_sleep_after_final_attempt (env : Nat → UpResp)
    (h : ∀ i, i < MAX_RETRIES → transientResp (env i) = true) :
    (fetch_player_record env).2.2.length = MAX_RETRIES ∧
    (fetch_player_record env).2.2.getLast? =
      some (backoffOf (env (MAX_RETRIES - 1)) (MAX_RETRIES - 1)) := by
  have hx := fetch_loop_transient env MAX_RETRIES 0
    (by intro i hi; simpa using h i hi)
  rw [fetch_player_record, hx]
  constructor
  · exact sleepsFor_length env MAX_RETRIES 0
  · have hc := sleepsFor_concat env 4 0
    have e : MAX_RETRIES = 4 + 1 := rfl
    rw [e]
    show (sleepsFor env 0 (4 + 1)).getLast? = _
    rw [hc, List.getLast?_concat]

/-- C7 (amended): when cancellation is observed mid-batch — after the
top-of-loop check admitted the batch, before its last completion is
consumed — the whole current batch has been dispatched and its in-flight
fetches run to completion, but only the completions consumed before the
flag is observed are recorded: the results and failed collections gain
exactly the rows of that consumed prefix, completions arriving after the
observation are discarded, no further batch is dispatched, and the
cooldown sleep is skipped. -/
theorem c7_amended_cancellation_mid_batch (k : Nat) (env : MapRecord → Nat → UpResp)
    (cls : String) (b : List MapRecord) (rest : List (List MapRecord)) (st : RunState)
    (h1 : st.checks < k) (h2 : k ≤ st.checks + b.length) :
    runBatches k env cls (b :: rest) st =
      { st with
        results := st.results ++ rowsOf env cls (b.take (k - st.checks - 1))
        failed := st.failed ++ (b.take (k - st.checks - 1)).filter (isFailed env)
        dispatched := st.dispatched ++ b
        checks := k + 2
        cooldowns := st.cooldowns } :=
  runBatches_stopped k env cls b rest st h1 h2

/-- C7 counterexample: a single batch of two maps, cancellation observed
at the second completion check. Both fetches were dispatched (and the
executor context manager waits for both to complete), yet only one row is
recorded: the dispatched map named b has no row in the results, so the
claim that every dispatched fetch's result is recorded in the
results/failed collections is false on the code. -/
theorem c7_counterexample :
    (run_tempus_fetch 2 (fun _ _ => UpResp.notFound) "Soldier"
      [⟨1, "a", "3", "0"⟩, ⟨2, "b", "3", "0"⟩] fun _ x => x).dispatched.length = 2 ∧
    (run_tempus_fetch 2 (fun _ _ => UpResp.notFound) "Soldier"
      [⟨1, "a", "3", "0"⟩, ⟨2, "b", "3", "0"⟩] fun _ x => x).results.length = 1 ∧
    ¬ (∀ m ∈ (run_tempus_fetch 2 (fun _ _ => UpResp.notFound) "Soldier"
        [⟨1, "a", "3", "0"⟩, ⟨2, "b", "3", "0"⟩] fun _ x => x).dispatched,
      ∃ r ∈ (run_tempus_fetch 2 (fun _ _ => UpResp.notFound) "Soldier"
        [⟨1, "a", "3", "0"⟩, ⟨2, "b", "3", "0"⟩] fun _ x => x).results,
        r.map_name = m.map_name) := by
  refine ⟨by decide, by decide, by decide⟩

/-- C8: the time formatter is a pure function of its argument; an absent
duration renders as the empty string, and a present non-negative
duration s is decomposed exactly as hours = floor(s / 3600), minutes =
floor((s mod 3600) / 60), seconds = floor(s mod 60) (writing s mod b for
the real modulus s - b * floor(s / b)) plus the sub-second component
floor((s - floor s) * 100), rendered with minutes and seconds (and
centiseconds) zero-padded to two digits when a higher unit is present
and with the hour component omitted when it is zero. -/
theorem c8_format_time_decomposition (s : ℚ) (hs : 0 ≤ s) :
    format_time none = "" ∧
    format_time (some s) =
      (if 0 < ⌊s / 3600⌋ then
        toString ⌊s / 3600⌋ ++ ":" ++ pad2 ⌊(s - 3600 * (⌊s / 3600⌋ : ℚ)) / 60⌋ ++ ":" ++
          pad2 ⌊s - 60 * (⌊s / 60⌋ : ℚ)⌋ ++ "." ++ pad2 ⌊(s - (⌊s⌋ : ℚ)) * 100⌋
      else if 0 < ⌊(s - 3600 * (⌊s / 3600⌋ : ℚ)) / 60⌋ then
        toString ⌊(s - 3600 * (⌊s / 3600⌋ : ℚ)) / 60⌋ ++ ":" ++
          pad2 ⌊s - 60 * (⌊s / 60⌋ : ℚ)⌋ ++ "." ++ pad2 ⌊(s - (⌊s⌋ : ℚ)) * 100⌋
      else
        toString ⌊s - 60 * (⌊s / 60⌋ : ℚ)⌋ ++ "." ++ pad2 ⌊(s - (⌊s⌋ : ℚ)) * 100⌋) := by
  have h3600 : (0 : ℚ) < 3600 := by norm_num
  have h60 : (0 : ℚ) < 60 := by norm_num
  have hm1 : 0 ≤ pymod s 3600 := pymod_nonneg s 3600 h3600
  have hm2 : 0 ≤ pymod s 60 := pymod_nonneg s 60 h60
  have hdiv1 : 0 ≤ s / 3600 := div_nonneg hs (le_of_lt h3600)
  have hdiv2 : 0 ≤ pymod s 3600 / 60 := div_nonneg hm1 (le_of_lt h60)
  have e1 : pyint (pyfloordiv s 3600) = ⌊s / 3600⌋ := by
    rw [pyfloordiv, pyint,
      if_pos (by exact_mod_cast Int.floor_nonneg.mpr hdiv1 : (0 : ℚ) ≤ (⌊s / 3600⌋ : ℚ)),
      Int.floor_intCast]
  have e2 : pyint (pyfloordiv (pymod s 3600) 60) = ⌊pymod s 3600 / 60⌋ := by
    rw [pyfloordiv, pyint,
      if_pos (by exact_mod_cast Int.floor_nonneg.mpr hdiv2 :
        (0 : ℚ) ≤ (⌊pymod s 3600 / 60⌋ : ℚ)),
      Int.floor_intCast]
  have e3 : pyint (pymod s 60) = ⌊pymod s 60⌋ := by
    rw [pyint, if_pos hm2]
  have e4 : pyint s = ⌊s⌋ := by
    rw [pyint, if_pos hs]
  have hfrac : 0 ≤ (s - ((⌊s⌋ : Int) : ℚ)) * 100 :=
    mul_nonneg (sub_nonneg.mpr (Int.floor_le s)) (by norm_num)
  have e5 : pyint ((s - ((pyint s : Int) : ℚ)) * 100) = ⌊(s - ((⌊s⌋ : Int) : ℚ)) * 100⌋ := by
    rw [e4, pyint, if_pos hfrac]
  refine ⟨rfl, ?_⟩
  simp only [pymod] at e2 e3
  simp only [format_time, pymod, e1, e2, e3, e5]

/-! ## Witnesses -/

/-- Witness for C1: a concrete two-map uncancelled run. -/
theorem c1_witness :
    checksOf ((batched BATCH_SIZE ([⟨1, "a", "3", "0"⟩, ⟨2, "b", "3", "0"⟩] :
      List MapRecord)).enum.map fun p => p.2) ≤ 100 ∧
    (run_tempus_fetch 100 (fun _ _ => UpResp.notFound) "Soldier"
      [⟨1, "a", "3", "0"⟩, ⟨2, "b", "3", "0"⟩] fun _ x => x).results.length =
      ([⟨1, "a", "3", "0"⟩, ⟨2, "b", "3", "0"⟩] : List MapRecord).length ∧
    (run_tempus_fetch 100 (fun _ _ => UpResp.notFound) "Soldier"
      [⟨1, "a", "3", "0"⟩, ⟨2, "b", "3", "0"⟩] fun _ x => x).results.Perm
      (rowsOf (fun _ _ => UpResp.notFound) "Soldier"
        [⟨1, "a", "3", "0"⟩, ⟨2, "b", "3", "0"⟩]) :=
  ⟨by decide, c1_one_result_row_per_map 100 (fun _ _ => UpResp.notFound) "Soldier"
    [⟨1, "a", "3", "0"⟩, ⟨2, "b", "3", "0"⟩] (fun _ x => x)
    (fun _ b => List.Perm.refl b) (by decide)⟩

/-- Witness for C4: a 404 on the first attempt. -/
theorem c4_witness :
    (fun _ => UpResp.notFound : Nat → UpResp) 0 = UpResp.notFound ∧
    fetch_player_record (fun _ => UpResp.notFound) = (⟨none, none⟩, 1, []) :=
  ⟨rfl, (c4_notFound_terminal_no_retry (fun _ => UpResp.notFound) rfl).1⟩

/-- Witness for C5: five consecutive 429 responses. -/
theorem c5_witness :
    (∀ i, i < MAX_RETRIES →
      transientResp ((fun _ => UpResp.rateLimited) i) = true) ∧
    (fetch_player_record (fun _ => UpResp.rateLimited)).1 = ⟨none, none⟩ ∧
    (fetch_player_record (fun _ => UpResp.rateLimited)).2.1 = MAX_RETRIES :=
  ⟨fun _ _ => rfl,
    c5_retries_exhausted_exact_requests (fun _ => UpResp.rateLimited) fun _ _ => rfl⟩

/-- Witness for C6: the backoff policy at attempts 1 and 4. -/
theorem c6_witness :
    backoff_rl 1 = 6 * 2 ^ 1 ∧ backoff_te 1 = 2 * 2 ^ 1 ∧
    backoff_rl 1 ≤ backoff_rl 4 ∧ backoff_te 1 ≤ backoff_te 4 ∧
    (List.range MAX_RETRIES).map backoff_rl = [6, 12, 24, 48, 96] ∧
    (List.range MAX_RETRIES).map backoff_te = [2, 4, 8, 16, 32] :=
  c6_backoff_policy 1 4 (by decide)

/-- Witness for C7 (amended): cancellation observed at the second
completion check of the first of two batches. -/
theorem c7_witness :
    initState.checks < 2 ∧
    2 ≤ initState.checks +
      ([⟨1, "a", "3", "0"⟩, ⟨2, "b", "3", "0"⟩] : List MapRecord).length ∧
    runBatches 2 (fun _ _ => UpResp.notFound) "Soldier"
      [[⟨1, "a", "3", "0"⟩, ⟨2, "b", "3", "0"⟩], [⟨3, "c", "3", "0"⟩]] initState =
      { initState with
        results := initState.results ++ rowsOf (fun _ _ => UpResp.notFound) "Soldier"
          (([⟨1, "a", "3", "0"⟩, ⟨2, "b", "3", "0"⟩] : List MapRecord).take
            (2 - initState.checks - 1))
        failed := initState.failed ++
          (([⟨1, "a", "3", "0"⟩, ⟨2, "b", "3", "0"⟩] : List MapRecord).take
            (2 - initState.checks - 1)).filter (isFailed fun _ _ => UpResp.notFound)
        dispatched := initState.dispatched ++ [⟨1, "a", "3", "0"⟩, ⟨2, "b", "3", "0"⟩]
        checks := 2 + 2
        cooldowns := initState.cooldowns } :=
  ⟨by decide, by decide,
    c7_amended_cancellation_mid_batch 2 (fun _ _ => UpResp.notFound) "Soldier"
      [⟨1, "a", "3", "0"⟩, ⟨2, "b", "3", "0"⟩] [[⟨3, "c", "3", "0"⟩]] initState
      (by decide) (by decide)⟩

/-- Witness for C8: the zero duration is non-negative and the formatter
maps an absent duration to the empty string. -/
theorem c8_witness : (0 : ℚ) ≤ 0 ∧ format_time none = "" :=
  ⟨le_refl 0, (c8_format_time_decomposition 0 (le_refl 0)).1⟩

/-- Witness for C9: a 404 environment, an empty-payload environment and an
all-bad-JSON environment produce identical rows for the same map. -/
theorem c9_witness :
    (fun _ => UpResp.notFound : Nat → UpResp) 0 = UpResp.notFound ∧
    (fun _ => UpResp.ok none : Nat → UpResp) 0 = UpResp.ok none ∧
    mkRow ("Soldier") ⟨7, "x", "2", "3"⟩
        (fetch_player_record (fun _ => UpResp.notFound)).1 =
      mkRow ("Soldier") ⟨7, "x", "2", "3"⟩
        (fetch_player_record (fun _ => UpResp.badJson)).1 :=
  ⟨rfl, rfl,
    (c9_terminal_cases_indistinguishable (fun _ => UpResp.notFound)
      (fun _ => UpResp.ok none) (fun _ => UpResp.badJson) ("Soldier") ⟨7, "x", "2", "3"⟩
      rfl rfl fun _ _ => rfl).2.2.2.1⟩

/-- Witness for C10: five consecutive transport errors; the last backoff
sleep is the attempt-4 delay. -/
theorem c10_witness :
    (∀ i, i < MAX_RETRIES →
      transientResp ((fun _ => UpResp.transportError) i) = true) ∧
    (fetch_player_record (fun _ => UpResp.transportError)).2.2.length = MAX_RETRIES ∧
    (fetch_player_record (fun _ => UpResp.transportError)).2.2.getLast? =
      some (backoffOf ((fun _ => UpResp.transportError) (MAX_RETRIES - 1))
        (MAX_RETRIES - 1)) :=
  ⟨fun _ _ => rfl,
    c10_sleep_after_final_attempt (fun _ => UpResp.transportError) fun _ _ => rfl⟩

/-! ## The exception-carrying model on well-shaped responses, and claim C3 -/

/-- On well-shaped responses the exception-carrying retry loop never
raises and agrees with the total loop. -/
theorem fetch_loopX_wellShaped (env : Nat → UpResp) :
    ∀ (fuel a : Nat),
      fetch_loopX (fun i => UpRespX.wellShaped (env i)) a fuel =
        some (fetch_loop env a fuel) := by
  intro fuel
  induction fuel with
  | zero => intro a; rfl
  | succ n ih =>
    intro a
    cases h : env a with
    | ok r => cases r <;> simp [fetch_loopX, fetch_loop, h]
    | notFound => simp [fetch_loopX, fetch_loop, h]
    | rateLimited => simp [fetch_loopX, fetch_loop, h, ih (a + 1)]
    | httpError => simp [fetch_loopX, fetch_loop, h, ih (a + 1)]
    | transportError => simp [fetch_loopX, fetch_loop, h, ih (a + 1)]
    | badJson => simp [fetch_loopX, fetch_loop, h, ih (a + 1)]

/-- On well-shaped responses no `future.result()` call re-raises, and the
completion loop agrees with the total model. -/
theorem processCompletionsX_wellShaped (k : Nat) (env : MapRecord → Nat → UpResp)
    (cls : String) :
    ∀ (order : List MapRecord) (st : RunState),
      processCompletionsX k (fun m a => UpRespX.wellShaped (env m a)) cls order st =
        some (processCompletions k env cls order st) := by
  intro order
  induction order with
  | nil => intro st; rfl
  | cons m rest ih =>
    intro st
    rw [processCompletionsX, processCompletions]
    by_cases hs : stopq k st.checks = true
    · simp [hs]
    · simp [hs, fetch_player_recordX, fetch_player_record,
        fetch_loopX_wellShaped (env m) MAX_RETRIES 0, ih]

/-- On well-shaped responses the batch loop never dies and agrees with
the total model. -/
theorem runBatchesX_wellShaped (k : Nat) (env : MapRecord → Nat → UpResp)
    (cls : String) :
    ∀ (bs : List (List MapRecord)) (st : RunState),
      runBatchesX k (fun m a => UpRespX.wellShaped (env m a)) cls bs st =
        some (runBatches k env cls bs st) := by
  intro bs
  induction bs with
  | nil => intro st; rfl
  | cons b rest ih =>
    intro st
    rw [runBatchesX, runBatches]
    by_cases hs : stopq k st.checks = true
    · simp [hs]
    · simp only [hs, Bool.false_eq_true, if_false,
        processCompletionsX_wellShaped k env cls b]
      by_cases hs2 : stopq k (processCompletions k env cls b
          { st with checks := st.checks + 1, dispatched := st.dispatched ++ b }).checks = true
      · simp [hs2]
      · simp [hs2, ih]

/-- C3 counterexample: a 2xx response whose parsed payload has an
unexpected shape (a non-object body, or a truthy non-dict `result`) on
the very first attempt of the only map. On the code, `data.get("result")`
at line 82 (or `result.get("duration")` at line 86) raises an
`AttributeError`; the `except requests.exceptions.RequestException` arm
at line 90 does not catch it; `future.result()` re-raises it at line 201
with no enclosing try, so the per-map fetch propagates an exception to
the scheduler and the run dies producing no summary — the claim, as
stated over every response sequence including unexpected payload shapes,
is false. -/
theorem c3_counterexample :
    fetch_player_recordX (fun _ => UpRespX.badShape) = none ∧
    run_tempus_fetchX 100 (fun _ _ => UpRespX.badShape) "Soldier"
      [⟨1, "a", "3", "0"⟩] (fun _ x => x) = none :=
  ⟨rfl, rfl⟩

/-- C3 (amended): for every sequence of upstream responses in which each
2xx body parses to an object and each truthy `result` field is an object
— 404s, rate limits, bad statuses, transport failures, unparseable
bodies and all-failing maps remain arbitrary — the per-map fetch never
propagates an exception to the batch scheduler's caller: the
exception-carrying engine completes (returns `some` state, never the
crash value) and agrees with the total model, an uncancelled run
produces one row per input map, and the failing maps, and only those,
are captured as data in the failed set. -/
theorem c3_wellformed_payloads_no_exception (k : Nat) (env : MapRecord → Nat → UpResp)
    (cls : String) (maps : List MapRecord) (arr : Nat → List MapRecord → List MapRecord)
    (harr : ∀ i b, (arr i b).Perm b)
    (hk : checksOf ((batched BATCH_SIZE maps).enum.map fun p => arr p.1 p.2) ≤ k) :
    run_tempus_fetchX k (fun m a => UpRespX.wellShaped (env m a)) cls maps arr =
      some (run_tempus_fetch k env cls maps arr) ∧
    (run_tempus_fetch k env cls maps arr).results.length = maps.length ∧
    (run_tempus_fetch k env cls maps arr).failed.Perm (maps.filter (isFailed env)) ∧
    ((∀ m, isFailed env m = true) →
      (run_tempus_fetch k env cls maps arr).failed.Perm maps) := by
  have hforall : List.Forall₂ List.Perm
      ((batched BATCH_SIZE maps).enum.map fun p => arr p.1 p.2)
      (batched BATCH_SIZE maps) :=
    forall₂_perm_enumFrom arr harr (batched BATCH_SIZE maps) 0
  have hperm : ((batched BATCH_SIZE maps).enum.map fun p => arr p.1 p.2).flatten.Perm maps := by
    have hp := flatten_perm_of_forall₂ hforall
    rwa [batched_flatten BATCH_SIZE (by decide)] at hp
  have hrun := runBatches_no_stop k env cls
    ((batched BATCH_SIZE maps).enum.map fun p => arr p.1 p.2) initState
    (by simpa [initState] using hk)
  have hfperm : ((batched BATCH_SIZE maps).enum.map fun p => arr p.1 p.2).flatten.filter
      (isFailed env) |>.Perm (maps.filter (isFailed env)) := hperm.filter (isFailed env)
  refine ⟨?_, ?_, ?_, ?_⟩
  · rw [run_tempus_fetchX, run_tempus_fetch]
    exact runBatchesX_wellShaped k env cls
      ((batched BATCH_SIZE maps).enum.map fun p => arr p.1 p.2) initState
  · rw [run_tempus_fetch, hrun]
    simp only [initState, List.nil_append]
    rw [rowsOf, List.length_map]
    exact hperm.length_eq
  · rw [run_tempus_fetch, hrun]
    simpa [initState] using hfperm
  · intro hall
    rw [run_tempus_fetch, hrun]
    have hself : maps.filter (isFailed env) = maps :=
      List.filter_eq_self.mpr fun a _ => hall a
    have hp2 := hfperm
    rw [hself] at hp2
    simpa [initState] using hp2

/-- Witness for C3 (amended): a concrete one-map run in which every
attempt is a well-shaped 429: no exception, the run completes with a
summary state, and the single map is captured in the failed set. -/
theorem c3_witness :
    checksOf ((batched BATCH_SIZE ([⟨3, "c", "3", "0"⟩] :
      List MapRecord)).enum.map fun p => p.2) ≤ 100 ∧
    run_tempus_fetchX 100 (fun _ _ => UpRespX.wellShaped UpResp.rateLimited) "Demoman"
      [⟨3, "c", "3", "0"⟩] (fun _ x => x) =
      some (run_tempus_fetch 100 (fun _ _ => UpResp.rateLimited) "Demoman"
        [⟨3, "c", "3", "0"⟩] fun _ x => x) ∧
    (run_tempus_fetch 100 (fun _ _ => UpResp.rateLimited) "Demoman"
      [⟨3, "c", "3", "0"⟩] fun _ x => x).failed.Perm [⟨3, "c", "3", "0"⟩] :=
  ⟨by decide,
    (c3_wellformed_payloads_no_exception 100 (fun _ _ => UpResp.rateLimited) "Demoman"
      [⟨3, "c", "3", "0"⟩] (fun _ x => x) (fun _ b => List.Perm.refl b) (by decide)).1,
    (c3_wellformed_payloads_no_exception 100 (fun _ _ => UpResp.rateLimited) "Demoman"
      [⟨3, "c", "3", "0"⟩] (fun _ x => x) (fun _ b => List.Perm.refl b)
      (by decide)).2.2.2 fun _ => rfl⟩
